import Mathlib

/-!
Verification of the Naffles Solana staking program
(src/contracts/solana/lib.rs, Anchor program `naffles_staking`).

The Rust source is shallowly embedded: each Anchor account struct becomes a
Lean structure, the on-chain account space becomes explicit association
lists keyed by the account addresses (PDA seeds determine the keys used at
creation time), and each instruction handler becomes a pure function from a
`State` plus the caller-supplied accounts/arguments to a result and a new
`State`.  Account resolution performed by the `#[derive(Accounts)]`
contexts (existence of the supplied accounts, `init` failing on an already
existing account, `init_if_needed` zero-initializing a missing account) is
modelled as explicit guards evaluated before the instruction body, exactly
as the Anchor runtime does.  A failing instruction leaves the state
unchanged, which matches the transactional semantics of the host chain.

`u64` counters are modelled as `Nat`; the decrement sites of the source
(`total_staked -= 1`) become truncated subtraction, and the underflow
question is treated explicitly by the theorems about the decrement sites.
`i64` timestamps are modelled as `Int`.  SPL token transfers are modelled
as an append-only log of (source account, destination account, amount)
triples together with a read-only map from token-account address to its
owning wallet; the program only ever moves amount 1 and never reads
balances.
-/

set_option linter.unusedVariables false

namespace NafflesStaking

/-- Solana public keys, abstracted to `Nat` (only equality is used). -/
abbrev Pubkey := Nat

/-- A staking position account is created with PDA seeds
`[b"staking_position", nft_mint, user]`, so positions are keyed by the
`(nft_mint, user)` pair. -/
abbrev PosKey := Pubkey × Pubkey

/-- `#[account] pub struct StakingProgram` (lib.rs). The `bump` field is
PDA plumbing with no behavioural content and is omitted. -/
structure StakingProgram where
  authority : Pubkey
  multi_sig_threshold : Nat
  total_staked : Nat
  total_collections : Nat
  is_paused : Bool
  paused_at : Int
  deriving Repr, DecidableEq

/-- `#[account] pub struct AdminAccount` (lib.rs). -/
structure AdminAccount where
  admin : Pubkey
  is_active : Bool
  added_at : Int
  deriving Repr, DecidableEq

/-- `#[account] pub struct CollectionAccount` (lib.rs). -/
structure CollectionAccount where
  collection_mint : Pubkey
  six_month_tickets : Nat
  twelve_month_tickets : Nat
  three_year_tickets : Nat
  six_month_multiplier : Nat
  twelve_month_multiplier : Nat
  three_year_multiplier : Nat
  is_active : Bool
  is_validated : Bool
  total_staked : Nat
  deriving Repr, DecidableEq

/-- `#[account] pub struct StakingPosition` (lib.rs). -/
structure StakingPosition where
  owner : Pubkey
  nft_mint : Pubkey
  collection_mint : Pubkey
  staked_at : Int
  unlock_at : Int
  duration : Nat
  is_active : Bool
  total_rewards_earned : Nat
  deriving Repr, DecidableEq

/-- `#[account] pub struct EmergencyRequest` (lib.rs). -/
structure EmergencyRequest where
  requester : Pubkey
  requested_at : Int
  reason : String
  executed : Bool
  deriving Repr, DecidableEq

/-- One SPL `token::transfer` CPI as performed by the program. -/
structure TokenTransfer where
  source : Pubkey
  dest : Pubkey
  amount : Nat
  deriving Repr, DecidableEq

/-- `#[error_code] pub enum StakingError`, extended with the two account
resolution failures that Anchor's generated `Accounts` contexts can raise
before the instruction body runs (`AccountNotFound` for a missing required
account, `AccountAlreadyExists` for `init` on an existing account). -/
inductive StakingError where
  | ContractPaused
  | InvalidDuration
  | CollectionNotActive
  | PositionNotActive
  | NotPositionOwner
  | StakingPeriodNotCompleted
  | ReasonRequired
  | EmergencyDelayNotMet
  | EmergencyRequestAlreadyExecuted
  | Unauthorized
  | InvalidRecipient
  | CollectionAlreadyExists
  | CollectionNotFound
  | InsufficientMultiSigConfirmations
  | AccountNotFound
  | AccountAlreadyExists
  deriving Repr, DecidableEq

/-- First-occurrence lookup in an association list (the account space maps
each address to at most one account, so first occurrence is the only
occurrence in every reachable state). -/
def findRec {κ α : Type} [DecidableEq κ] (k : κ) : List (κ × α) → Option α
  | [] => none
  | (k', v) :: rest => if k' = k then some v else findRec k rest

/-- Write-through update: replaces the first binding of `k`, or appends a
new binding when `k` is absent (account creation). -/
def setRec {κ α : Type} [DecidableEq κ] (k : κ) (v : α) : List (κ × α) → List (κ × α)
  | [] => [(k, v)]
  | (k', v') :: rest => if k' = k then (k, v) :: rest else (k', v') :: setRec k v rest

/-- The whole observable on-chain state: the singleton `StakingProgram`
account plus the four account families, the read-only map from token
account address to owning wallet, and the log of token transfers the
program has performed. -/
structure State where
  staking_program : StakingProgram
  admins : List (Pubkey × AdminAccount)
  collections : List (Pubkey × CollectionAccount)
  positions : List (PosKey × StakingPosition)
  emergencies : List (PosKey × EmergencyRequest)
  token_owner : List (Pubkey × Pubkey)
  transfers : List TokenTransfer
  deriving Repr, DecidableEq

/-- `pub const SIX_MONTHS: i64 = 180 * 24 * 60 * 60` (lib.rs line 12). -/
def SIX_MONTHS : Int := 180 * 24 * 60 * 60

/-- `pub const TWELVE_MONTHS: i64 = 365 * 24 * 60 * 60` (lib.rs line 13). -/
def TWELVE_MONTHS : Int := 365 * 24 * 60 * 60

/-- `pub const THREE_YEARS: i64 = 1095 * 24 * 60 * 60` (lib.rs line 14). -/
def THREE_YEARS : Int := 1095 * 24 * 60 * 60

/-- `pub const EMERGENCY_DELAY: i64 = 24 * 60 * 60` (lib.rs line 17). -/
def EMERGENCY_DELAY : Int := 24 * 60 * 60

/-- `pub const AUTO_UNPAUSE_DELAY: i64 = 7 * 24 * 60 * 60` (lib.rs line 18,
declared but never consulted by any instruction). -/
def AUTO_UNPAUSE_DELAY : Int := 7 * 24 * 60 * 60

/-- Result of one instruction: the program result plus the state after the
call (unchanged on failure, matching the transaction rollback of the host
chain). -/
abbrev Res := Except StakingError Unit

instance : DecidableEq Res
  | .ok (), .ok () => isTrue rfl
  | .ok (), .error _ => isFalse (by simp)
  | .error _, .ok () => isFalse (by simp)
  | .error e1, .error e2 =>
    if h : e1 = e2 then isTrue (by rw [h]) else isFalse (by simp [h])

/-- `initialize` (lib.rs lines 20-31): the freshly created singleton with
zeroed counters, unpaused, and the caller recorded as authority. -/
def initState (authority : Pubkey) (multi_sig_threshold : Nat)
    (token_owner : List (Pubkey × Pubkey)) : State :=
  { staking_program :=
      { authority := authority
        multi_sig_threshold := multi_sig_threshold
        total_staked := 0
        total_collections := 0
        is_paused := false
        paused_at := 0 }
    admins := []
    collections := []
    positions := []
    emergencies := []
    token_owner := token_owner
    transfers := [] }

/-- `add_admin` (lib.rs lines 33-49).  Context `AddAdmin`: `admin_account`
is `init` with seeds `[b"admin", admin]` (fails when it already exists);
the `authority` signer is *not* compared against
`staking_program.authority` anywhere (no `has_one` constraint, no
`require!`), so the parameter is received but never checked. -/
def add_admin (s : State) (authority : Pubkey) (admin : Pubkey) (now : Int) :
    Res × State :=
  match findRec admin s.admins with
  | some _ => (.error .AccountAlreadyExists, s)
  | none =>
    if s.staking_program.is_paused then (.error .ContractPaused, s)
    else
      (.ok (), { s with admins :=
        (setRec admin { admin := admin, is_active := true, added_at := now } s.admins) })

/-- `add_collection` (lib.rs lines 51-90).  Context `AddCollection`:
`collection_account` is `init` with seeds `[b"collection",
collection_mint]`; as in `add_admin`, the `authority` signer is never
compared with the stored authority. -/
def add_collection (s : State) (authority : Pubkey) (collection_mint : Pubkey)
    (six_month_tickets twelve_month_tickets three_year_tickets : Nat) :
    Res × State :=
  match findRec collection_mint s.collections with
  | some _ => (.error .AccountAlreadyExists, s)
  | none =>
    if s.staking_program.is_paused then (.error .ContractPaused, s)
    else
      (.ok (), { s with
        collections := setRec collection_mint
          { collection_mint := collection_mint
            six_month_tickets := six_month_tickets
            twelve_month_tickets := twelve_month_tickets
            three_year_tickets := three_year_tickets
            six_month_multiplier := 11000
            twelve_month_multiplier := 12500
            three_year_multiplier := 15000
            is_active := true
            is_validated := false
            total_staked := 0 } s.collections
        staking_program := { s.staking_program with
          total_collections := s.staking_program.total_collections + 1 } })

/-- The `match duration { 0 => SIX_MONTHS, 1 => TWELVE_MONTHS, 2 =>
THREE_YEARS, _ => return Err(InvalidDuration) }` of `stake_nft`
(lib.rs lines 104-109). -/
def durationSeconds : Nat → Option Int
  | 0 => some SIX_MONTHS
  | 1 => some TWELVE_MONTHS
  | 2 => some THREE_YEARS
  | _ => none

/-- `stake_nft` (lib.rs lines 92-157).  Context `StakeNft`:
`collection_account` is any existing collection account chosen by the
caller, `staking_position` is `init` with seeds `[b"staking_position",
nft_mint, user]`, and the two token accounts must exist.  The body checks
pause, `duration <= 2` and the collection's active flag, performs the
deposit transfer, creates the position and increments both counters. -/
def stake_nft (s : State) (duration : Nat) (collKey : Pubkey) (nft_mint : Pubkey)
    (user_token_account program_token_account : Pubkey) (user : Pubkey) (now : Int) :
    Res × State :=
  match findRec collKey s.collections with
  | none => (.error .AccountNotFound, s)
  | some c =>
  match findRec (nft_mint, user) s.positions with
  | some _ => (.error .AccountAlreadyExists, s)
  | none =>
  if (findRec user_token_account s.token_owner).isNone then (.error .AccountNotFound, s)
  else if (findRec program_token_account s.token_owner).isNone then (.error .AccountNotFound, s)
  else if s.staking_program.is_paused then (.error .ContractPaused, s)
  else if ¬ duration ≤ 2 then (.error .InvalidDuration, s)
  else if ¬ c.is_active then (.error .CollectionNotActive, s)
  else
    match durationSeconds duration with
    | none => (.error .InvalidDuration, s)
    | some staking_duration =>
      (.ok (), { s with
        positions := setRec (nft_mint, user)
          { owner := user
            nft_mint := nft_mint
            collection_mint := c.collection_mint
            staked_at := now
            unlock_at := now + staking_duration
            duration := duration
            is_active := true
            total_rewards_earned := 0 } s.positions
        transfers := s.transfers ++ [⟨user_token_account, program_token_account, 1⟩]
        staking_program := { s.staking_program with
          total_staked := s.staking_program.total_staked + 1 }
        collections := setRec collKey { c with total_staked := c.total_staked + 1 } s.collections })

/-- `claim_nft` (lib.rs lines 159-208).  Context `ClaimNft`: the caller
supplies any existing collection account, any existing staking position
and two token accounts; no constraint ties `collection_account` to
`staking_position.collection_mint`.  Body: pause, position active, owner,
unlock-time checks; then deactivate, transfer back, decrement both
counters (`-= 1`, no zero guard, modelled by truncated subtraction). -/
def claim_nft (s : State) (posKey : PosKey) (collKey : Pubkey)
    (user_token_account program_token_account : Pubkey) (user : Pubkey) (now : Int) :
    Res × State :=
  match findRec collKey s.collections with
  | none => (.error .AccountNotFound, s)
  | some c =>
  match findRec posKey s.positions with
  | none => (.error .AccountNotFound, s)
  | some p =>
  if (findRec user_token_account s.token_owner).isNone then (.error .AccountNotFound, s)
  else if (findRec program_token_account s.token_owner).isNone then (.error .AccountNotFound, s)
  else if s.staking_program.is_paused then (.error .ContractPaused, s)
  else if ¬ p.is_active then (.error .PositionNotActive, s)
  else if ¬ p.owner = user then (.error .NotPositionOwner, s)
  else if now < p.unlock_at then (.error .StakingPeriodNotCompleted, s)
  else
    (.ok (), { s with
      positions := setRec posKey { p with is_active := false } s.positions
      transfers := s.transfers ++ [⟨program_token_account, user_token_account, 1⟩]
      staking_program := { s.staking_program with
        total_staked := s.staking_program.total_staked - 1 }
      collections := setRec collKey { c with total_staked := c.total_staked - 1 } s.collections })

/-- The `emergency_request` account of `AdminUnlock` is `init_if_needed`
with seeds `[b"emergency_request", staking_position]`: a missing account is
zero-initialized, which is exactly the `requested_at == 0` sentinel the
body tests. -/
def emergencyOf (s : State) (posKey : PosKey) : EmergencyRequest :=
  (findRec posKey s.emergencies).getD ⟨0, 0, "", false⟩

/-- `admin_unlock` (lib.rs lines 210-287).  Context `AdminUnlock`: the
caller supplies any existing collection account, any existing position,
some existing admin account (not constrained to the `admin` signer), and
the two token accounts — in particular `owner_token_account` is any token
account the caller chooses.  The body has *no* pause check; it checks a
non-empty reason and an active position, then runs the two-phase
emergency state machine keyed on the `requested_at == 0` sentinel. -/
def admin_unlock (s : State) (posKey : PosKey) (collKey : Pubkey)
    (adminAcctKey : Pubkey) (program_token_account owner_token_account : Pubkey)
    (admin : Pubkey) (reason : String) (now : Int) : Res × State :=
  match findRec collKey s.collections with
  | none => (.error .AccountNotFound, s)
  | some c =>
  match findRec posKey s.positions with
  | none => (.error .AccountNotFound, s)
  | some p =>
  match findRec adminAcctKey s.admins with
  | none => (.error .AccountNotFound, s)
  | some _ =>
  if (findRec program_token_account s.token_owner).isNone then (.error .AccountNotFound, s)
  else if (findRec owner_token_account s.token_owner).isNone then (.error .AccountNotFound, s)
  else if reason = "" then (.error .ReasonRequired, s)
  else if ¬ p.is_active then (.error .PositionNotActive, s)
  else
    if (emergencyOf s posKey).requested_at = 0 then
      (.ok (), { s with emergencies := (setRec posKey
        { requester := admin, requested_at := now, reason := reason, executed := false }
        s.emergencies) })
    else if now < (emergencyOf s posKey).requested_at + EMERGENCY_DELAY then
      (.error .EmergencyDelayNotMet, s)
    else if (emergencyOf s posKey).executed then (.error .EmergencyRequestAlreadyExecuted, s)
    else
      (.ok (), { s with
        emergencies := setRec posKey
          { emergencyOf s posKey with executed := true } s.emergencies
        positions := setRec posKey { p with is_active := false } s.positions
        transfers := s.transfers ++ [⟨program_token_account, owner_token_account, 1⟩]
        staking_program := { s.staking_program with
          total_staked := s.staking_program.total_staked - 1 }
        collections := setRec collKey { c with total_staked := c.total_staked - 1 } s.collections })

/-- `pause_contract` (lib.rs lines 289-307).  Context `PauseContract`
requires some existing `AdminAccount` to be supplied (Anchor deserializes
it), but the body performs no check at all: it unconditionally sets
`is_paused = true` and records `paused_at`. -/
def pause_contract (s : State) (adminAcctKey : Pubkey) (admin : Pubkey) (now : Int) :
    Res × State :=
  match findRec adminAcctKey s.admins with
  | none => (.error .AccountNotFound, s)
  | some _ =>
    (.ok (), { s with staking_program :=
      { s.staking_program with is_paused := true, paused_at := now } })

/-- `unpause_contract` (lib.rs lines 309-327): unconditionally sets
`is_paused = false` and `paused_at = 0`. -/
def unpause_contract (s : State) (adminAcctKey : Pubkey) (admin : Pubkey) :
    Res × State :=
  match findRec adminAcctKey s.admins with
  | none => (.error .AccountNotFound, s)
  | some _ =>
    (.ok (), { s with staking_program :=
      { s.staking_program with is_paused := false, paused_at := 0 } })

/-- `update_collection_rewards` (lib.rs lines 329-356): pause check, then
overwrites the three ticket counts of the supplied collection. -/
def update_collection_rewards (s : State) (collKey adminAcctKey authority : Pubkey)
    (six_month_tickets twelve_month_tickets three_year_tickets : Nat) : Res × State :=
  match findRec collKey s.collections with
  | none => (.error .AccountNotFound, s)
  | some c =>
  match findRec adminAcctKey s.admins with
  | none => (.error .AccountNotFound, s)
  | some _ =>
  if s.staking_program.is_paused then (.error .ContractPaused, s)
  else
    (.ok (), { s with collections := (setRec collKey
      { c with
        six_month_tickets := six_month_tickets,
        twelve_month_tickets := twelve_month_tickets,
        three_year_tickets := three_year_tickets } s.collections) })

/-- `validate_collection` (lib.rs lines 358-374): pause check, then sets
the `is_validated` flag of the supplied collection. -/
def validate_collection (s : State) (collKey adminAcctKey authority : Pubkey)
    (validated : Bool) : Res × State :=
  match findRec collKey s.collections with
  | none => (.error .AccountNotFound, s)
  | some c =>
  match findRec adminAcctKey s.admins with
  | none => (.error .AccountNotFound, s)
  | some _ =>
  if s.staking_program.is_paused then (.error .ContractPaused, s)
  else
    (.ok (), { s with collections := (setRec collKey
      { c with is_validated := validated } s.collections) })

/-- One instruction invocation with all its caller-supplied accounts and
arguments. -/
inductive Op where
  | opAddAdmin (authority admin : Pubkey) (now : Int)
  | opAddCollection (authority collection_mint : Pubkey) (t6 t12 t36 : Nat)
  | opStakeNft (duration : Nat) (collKey nft_mint user_token program_token user : Pubkey)
      (now : Int)
  | opClaimNft (posKey : PosKey) (collKey user_token program_token user : Pubkey) (now : Int)
  | opAdminUnlock (posKey : PosKey) (collKey adminAcctKey program_token owner_token admin : Pubkey)
      (reason : String) (now : Int)
  | opPause (adminAcctKey admin : Pubkey) (now : Int)
  | opUnpause (adminAcctKey admin : Pubkey)
  | opUpdateRewards (collKey adminAcctKey authority : Pubkey) (t6 t12 t36 : Nat)
  | opValidateCollection (collKey adminAcctKey authority : Pubkey) (validated : Bool)
  deriving Repr, DecidableEq

/-- Dispatch one instruction. -/
def apply (s : State) : Op → Res × State
  | .opAddAdmin authority admin now => add_admin s authority admin now
  | .opAddCollection authority collection_mint t6 t12 t36 =>
      add_collection s authority collection_mint t6 t12 t36
  | .opStakeNft duration collKey nft_mint user_token program_token user now =>
      stake_nft s duration collKey nft_mint user_token program_token user now
  | .opClaimNft posKey collKey user_token program_token user now =>
      claim_nft s posKey collKey user_token program_token user now
  | .opAdminUnlock posKey collKey adminAcctKey program_token owner_token admin reason now =>
      admin_unlock s posKey collKey adminAcctKey program_token owner_token admin reason now
  | .opPause adminAcctKey admin now => pause_contract s adminAcctKey admin now
  | .opUnpause adminAcctKey admin => unpause_contract s adminAcctKey admin
  | .opUpdateRewards collKey adminAcctKey authority t6 t12 t36 =>
      update_collection_rewards s collKey adminAcctKey authority t6 t12 t36
  | .opValidateCollection collKey adminAcctKey authority validated =>
      validate_collection s collKey adminAcctKey authority validated

/-- Run a list of instructions in order, keeping only the states. -/
def applySeq (s : State) : List Op → State
  | [] => s
  | op :: rest => applySeq (apply s op).2 rest

/-! ### Association-list lemmas -/

section AssocLemmas

variable {κ α : Type} [DecidableEq κ]

theorem findRec_cons (k k0 : κ) (v0 : α) (tl : List (κ × α)) :
    findRec k ((k0, v0) :: tl) = if k0 = k then some v0 else findRec k tl := rfl

theorem setRec_cons (k k0 : κ) (v : α) (v0 : α) (tl : List (κ × α)) :
    setRec k v ((k0, v0) :: tl) =
      if k0 = k then (k, v) :: tl else (k0, v0) :: setRec k v tl := rfl

theorem findRec_setRec_self (k : κ) (v : α) :
    ∀ l : List (κ × α), findRec k (setRec k v l) = some v := by
  intro l
  induction l with
  | nil => simp [findRec, setRec]
  | cons hd tl ih =>
    obtain ⟨k0, v0⟩ := hd
    rw [setRec_cons]
    by_cases hk : k0 = k
    · rw [if_pos hk, findRec_cons, if_pos rfl]
    · rw [if_neg hk, findRec_cons, if_neg hk]
      exact ih

theorem findRec_setRec_ne (k k' : κ) (v : α) (hne : k' ≠ k) :
    ∀ l : List (κ × α), findRec k' (setRec k v l) = findRec k' l := by
  intro l
  have hne' : ¬ k = k' := fun h => hne h.symm
  induction l with
  | nil => simp only [setRec, findRec, if_neg hne']
  | cons hd tl ih =>
    obtain ⟨k0, v0⟩ := hd
    rw [setRec_cons]
    by_cases hk : k0 = k
    · subst hk
      rw [if_pos rfl, findRec_cons, findRec_cons, if_neg hne', if_neg hne']
    · rw [if_neg hk, findRec_cons, findRec_cons]
      by_cases hk' : k0 = k'
      · rw [if_pos hk', if_pos hk']
      · rw [if_neg hk', if_neg hk']
        exact ih

theorem mem_of_findRec_some {k : κ} {v : α} :
    ∀ {l : List (κ × α)}, findRec k l = some v → (k, v) ∈ l := by
  intro l
  induction l with
  | nil => intro h; simp [findRec] at h
  | cons hd tl ih =>
    obtain ⟨k0, v0⟩ := hd
    intro h
    rw [findRec_cons] at h
    by_cases hk : k0 = k
    · rw [if_pos hk] at h
      subst hk
      cases h
      exact List.mem_cons_self _ _
    · rw [if_neg hk] at h
      exact List.mem_cons_of_mem _ (ih h)

theorem findRec_eq_none_iff {k : κ} :
    ∀ {l : List (κ × α)}, findRec k l = none ↔ k ∉ l.map Prod.fst := by
  intro l
  induction l with
  | nil => simp [findRec]
  | cons hd tl ih =>
    obtain ⟨k0, v0⟩ := hd
    rw [findRec_cons]
    by_cases hk : k0 = k
    · subst hk
      simp
    · rw [if_neg hk]
      simp only [List.map_cons, List.mem_cons]
      rw [ih]
      constructor
      · intro h hcontra
        rcases hcontra with h1 | h2
        · exact hk h1.symm
        · exact h h2
      · intro h hmem
        exact h (Or.inr hmem)

theorem findRec_of_mem_nodup {k : κ} {v : α} :
    ∀ {l : List (κ × α)}, (l.map Prod.fst).Nodup → (k, v) ∈ l → findRec k l = some v := by
  intro l
  induction l with
  | nil => intro _ h; simp at h
  | cons hd tl ih =>
    obtain ⟨k0, v0⟩ := hd
    intro hnd hmem
    rcases List.mem_cons.mp hmem with heq | htl
    · injection heq with h1 h2
      subst h1
      subst h2
      rw [findRec_cons, if_pos rfl]
    · have hk : k0 ≠ k := by
        intro hcontra
        subst hcontra
        have : k0 ∈ tl.map Prod.fst := List.mem_map.mpr ⟨(k0, v), htl, rfl⟩
        exact (List.nodup_cons.mp (by simpa using hnd)).1 this
      rw [findRec_cons, if_neg hk]
      exact ih (List.nodup_cons.mp (by simpa using hnd)).2 htl

/-- Count of the entries whose value satisfies `f`. -/
def countV (f : α → Bool) (l : List (κ × α)) : Nat :=
  (l.filter (fun kv => f kv.2)).length

theorem countV_nil (f : α → Bool) : countV f ([] : List (κ × α)) = 0 := rfl

theorem countV_cons (f : α → Bool) (hd : κ × α) (tl : List (κ × α)) :
    countV f (hd :: tl) = (if f hd.2 then 1 else 0) + countV f tl := by
  by_cases h : f hd.2 <;> simp [countV, List.filter_cons, h] <;> omega

theorem countV_setRec_update {f : α → Bool} {k : κ} {v : α} (v' : α) :
    ∀ {l : List (κ × α)}, findRec k l = some v →
      countV f (setRec k v' l) + (if f v then 1 else 0) =
        countV f l + (if f v' then 1 else 0) := by
  intro l
  induction l with
  | nil => intro h; simp [findRec] at h
  | cons hd tl ih =>
    obtain ⟨k0, v0⟩ := hd
    intro h
    rw [findRec_cons] at h
    rw [setRec_cons]
    by_cases hk : k0 = k
    · rw [if_pos hk] at h
      cases h
      rw [if_pos hk, countV_cons, countV_cons]
      simp only
      omega
    · rw [if_neg hk] at h
      rw [if_neg hk, countV_cons, countV_cons]
      have := ih h
      omega

theorem countV_setRec_insert {f : α → Bool} {k : κ} {v : α} :
    ∀ {l : List (κ × α)}, findRec k l = none →
      countV f (setRec k v l) = countV f l + (if f v then 1 else 0) := by
  intro l
  induction l with
  | nil =>
    intro _
    show countV f [(k, v)] = countV f [] + (if f v then 1 else 0)
    rw [countV_cons, countV_nil]
    simp
  | cons hd tl ih =>
    obtain ⟨k0, v0⟩ := hd
    intro h
    rw [findRec_cons] at h
    by_cases hk : k0 = k
    · rw [if_pos hk] at h
      cases h
    · rw [if_neg hk] at h
      rw [setRec_cons, if_neg hk, countV_cons, countV_cons, ih h]
      omega

theorem countV_setRec_true_false {f : α → Bool} {k : κ} {v : α} (v' : α)
    (hv : f v = true) (hv' : f v' = false) :
    ∀ {l : List (κ × α)}, findRec k l = some v →
      countV f (setRec k v' l) + 1 = countV f l := by
  intro l h
  have hu := @countV_setRec_update κ α _ f k v v' l h
  rw [hv, hv'] at hu
  simpa using hu

theorem countV_setRec_false_false {f : α → Bool} {k : κ} {v : α} (v' : α)
    (hv : f v = false) (hv' : f v' = false) :
    ∀ {l : List (κ × α)}, findRec k l = some v →
      countV f (setRec k v' l) = countV f l := by
  intro l h
  have hu := @countV_setRec_update κ α _ f k v v' l h
  rw [hv, hv'] at hu
  simpa using hu

theorem countV_setRec_insert_true {f : α → Bool} {k : κ} {v : α}
    (hv : f v = true) :
    ∀ {l : List (κ × α)}, findRec k l = none →
      countV f (setRec k v l) = countV f l + 1 := by
  intro l h
  have hu := @countV_setRec_insert κ α _ f k v l h
  rwa [hv, if_pos rfl] at hu

theorem countV_setRec_insert_false {f : α → Bool} {k : κ} {v : α}
    (hv : f v = false) :
    ∀ {l : List (κ × α)}, findRec k l = none →
      countV f (setRec k v l) = countV f l := by
  intro l h
  have hu := @countV_setRec_insert κ α _ f k v l h
  rw [hv] at hu
  simpa using hu

theorem countV_pos_of_mem {f : α → Bool} {k : κ} {v : α} {l : List (κ × α)}
    (hmem : (k, v) ∈ l) (hf : f v = true) : 1 ≤ countV f l := by
  induction l with
  | nil => simp at hmem
  | cons hd tl ih =>
    rcases List.mem_cons.mp hmem with heq | htl
    · rw [countV_cons, ← heq]
      simp only [hf, if_pos]
      omega
    · have := ih htl
      rw [countV_cons]
      omega

theorem countV_eq_zero_iff {f : α → Bool} {l : List (κ × α)} :
    countV f l = 0 ↔ ∀ e ∈ l, f e.2 = false := by
  induction l with
  | nil => simp [countV_nil]
  | cons hd tl ih =>
    rw [countV_cons]
    by_cases h : f hd.2
    · constructor
      · intro hcontra
        rw [if_pos h] at hcontra
        omega
      · intro hall
        have := hall hd (List.mem_cons_self _ _)
        rw [this] at h
        cases h
    · rw [if_neg h]
      simp only [Nat.zero_add, ih]
      constructor
      · intro hall e hmem
        rcases List.mem_cons.mp hmem with heq | htl
        · subst heq
          exact Bool.eq_false_iff.mpr h
        · exact hall e htl
      · intro hall e hmem
        exact hall e (List.mem_cons_of_mem _ hmem)

theorem keys_setRec_of_some {k : κ} {v : α} (v' : α) :
    ∀ {l : List (κ × α)}, findRec k l = some v →
      (setRec k v' l).map Prod.fst = l.map Prod.fst := by
  intro l
  induction l with
  | nil => intro h; simp [findRec] at h
  | cons hd tl ih =>
    obtain ⟨k0, v0⟩ := hd
    intro h
    rw [findRec_cons] at h
    rw [setRec_cons]
    by_cases hk : k0 = k
    · subst hk
      rw [if_pos rfl]
      simp
    · rw [if_neg hk] at h
      rw [if_neg hk]
      simp [ih h]

theorem keys_setRec_of_none {k : κ} {v : α} :
    ∀ {l : List (κ × α)}, findRec k l = none →
      (setRec k v l).map Prod.fst = l.map Prod.fst ++ [k] := by
  intro l
  induction l with
  | nil => intro _; simp [setRec]
  | cons hd tl ih =>
    obtain ⟨k0, v0⟩ := hd
    intro h
    rw [findRec_cons] at h
    by_cases hk : k0 = k
    · rw [if_pos hk] at h
      cases h
    · rw [if_neg hk] at h
      rw [setRec_cons, if_neg hk]
      simp [ih h]

theorem mem_setRec_of_some {k : κ} {v : α} (v' : α) {e : κ × α} :
    ∀ {l : List (κ × α)}, (l.map Prod.fst).Nodup → findRec k l = some v →
      (e ∈ setRec k v' l ↔ e = (k, v') ∨ (e ∈ l ∧ e.1 ≠ k)) := by
  intro l
  induction l with
  | nil => intro _ h; simp [findRec] at h
  | cons hd tl ih =>
    obtain ⟨k0, v0⟩ := hd
    intro hnd h
    have hnd' : (tl.map Prod.fst).Nodup := (List.nodup_cons.mp (by simpa using hnd)).2
    have hk0 : k0 ∉ tl.map Prod.fst := (List.nodup_cons.mp (by simpa using hnd)).1
    rw [findRec_cons] at h
    rw [setRec_cons]
    by_cases hk : k0 = k
    · subst hk
      rw [if_pos rfl] at h ⊢
      cases h
      rw [List.mem_cons, List.mem_cons]
      constructor
      · rintro (heq | htl)
        · exact Or.inl heq
        · refine Or.inr ⟨Or.inr htl, ?_⟩
          intro h1
          exact hk0 (h1 ▸ List.mem_map.mpr ⟨e, htl, rfl⟩)
      · rintro (heq | ⟨heq | htl, hne⟩)
        · exact Or.inl heq
        · exact absurd (congrArg Prod.fst heq) hne
        · exact Or.inr htl
    · rw [if_neg hk] at h
      rw [if_neg hk, List.mem_cons, ih hnd' h, List.mem_cons]
      constructor
      · rintro (heq | hnew | ⟨hmem, hne⟩)
        · refine Or.inr ⟨Or.inl heq, ?_⟩
          rw [heq]
          exact fun h1 => hk h1
        · exact Or.inl hnew
        · exact Or.inr ⟨Or.inr hmem, hne⟩
      · rintro (hnew | ⟨heq | hmem, hne⟩)
        · exact Or.inr (Or.inl hnew)
        · exact Or.inl heq
        · exact Or.inr (Or.inr ⟨hmem, hne⟩)

theorem mem_setRec_of_none {k : κ} {v : α} {e : κ × α} :
    ∀ {l : List (κ × α)}, findRec k l = none →
      (e ∈ setRec k v l ↔ e ∈ l ∨ e = (k, v)) := by
  intro l
  induction l with
  | nil => intro _; simp [setRec]
  | cons hd tl ih =>
    obtain ⟨k0, v0⟩ := hd
    intro h
    rw [findRec_cons] at h
    by_cases hk : k0 = k
    · rw [if_pos hk] at h
      cases h
    · rw [if_neg hk] at h
      rw [setRec_cons, if_neg hk, List.mem_cons, ih h, List.mem_cons]
      tauto

end AssocLemmas

/-! ### Counter-consistency invariant -/

/-- Whether a position is currently active. -/
def isActiveB (p : StakingPosition) : Bool := p.is_active

/-- Whether a position is currently active and references the collection
mint `mint`. -/
def refsColl (mint : Pubkey) (p : StakingPosition) : Bool :=
  p.is_active && p.collection_mint == mint

/-- Number of currently active positions. -/
def activeCount (s : State) : Nat := countV isActiveB s.positions

/-- Number of currently active positions referencing collection `mint`. -/
def collActiveCount (s : State) (mint : Pubkey) : Nat :=
  countV (refsColl mint) s.positions

/-- The counter-consistency invariant of the spec, together with the
bookkeeping facts needed to make it inductive: the global `total_staked`
equals the number of active positions, each collection record's
`total_staked` equals the number of active positions referencing it, every
collection record stores its own key as `collection_mint`, every active
position references an existing collection record, and the account keys of
both families are duplicate-free. -/
def Inv (s : State) : Prop :=
  s.staking_program.total_staked = activeCount s ∧
  (∀ e ∈ s.collections,
    e.2.collection_mint = e.1 ∧ e.2.total_staked = collActiveCount s e.1) ∧
  (∀ e ∈ s.positions, e.2.is_active = true →
    (findRec e.2.collection_mint s.collections).isSome = true) ∧
  (s.collections.map Prod.fst).Nodup ∧
  (s.positions.map Prod.fst).Nodup

instance (s : State) : Decidable (Inv s) := by
  unfold Inv
  infer_instance

theorem refsColl_eq_true {mint : Pubkey} {p : StakingPosition}
    (ha : p.is_active = true) (hm : p.collection_mint = mint) :
    refsColl mint p = true := by
  simp [refsColl, ha, hm]

theorem refsColl_eq_false_of_inactive {mint : Pubkey} {p : StakingPosition}
    (ha : p.is_active = false) : refsColl mint p = false := by
  simp [refsColl, ha]

theorem refsColl_eq_false_of_ne {mint : Pubkey} {p : StakingPosition}
    (hm : p.collection_mint ≠ mint) : refsColl mint p = false := by
  simp [refsColl, hm]

/-- An active position found in the ledger makes both counted quantities
positive. -/
theorem counts_pos_of_active {s : State} {posKey : PosKey} {p : StakingPosition}
    (hp : findRec posKey s.positions = some p) (hactive : p.is_active = true) :
    1 ≤ activeCount s ∧ 1 ≤ collActiveCount s p.collection_mint := by
  have hmem := mem_of_findRec_some hp
  constructor
  · exact countV_pos_of_mem hmem (by simp [isActiveB, hactive])
  · exact countV_pos_of_mem hmem (refsColl_eq_true hactive rfl)

/-- `Inv` is preserved by a claim-type mutation: deactivate position
`posKey` (whose record references collection `collKey`) and decrement both
the global counter and collection `collKey`'s counter by one. -/
theorem Inv_claimLike (s s' : State) (posKey : PosKey) (collKey : Pubkey)
    (c : CollectionAccount) (p : StakingPosition)
    (hinv : Inv s)
    (hc : findRec collKey s.collections = some c)
    (hp : findRec posKey s.positions = some p)
    (hactive : p.is_active = true)
    (hmatch : p.collection_mint = collKey)
    (hpos : s'.positions = setRec posKey { p with is_active := false } s.positions)
    (hcolls : s'.collections =
      setRec collKey { c with total_staked := c.total_staked - 1 } s.collections)
    (hsp : s'.staking_program.total_staked = s.staking_program.total_staked - 1) :
    Inv s' := by
  obtain ⟨hglob, hcoll, href, hndc, hndp⟩ := hinv
  have hmemp : (posKey, p) ∈ s.positions := mem_of_findRec_some hp
  have hmemc : (collKey, c) ∈ s.collections := mem_of_findRec_some hc
  have hcmint : c.collection_mint = collKey := (hcoll _ hmemc).1
  have hctot : c.total_staked = collActiveCount s collKey := (hcoll _ hmemc).2
  have hactB : isActiveB p = true := by simp [isActiveB, hactive]
  have hactB' : isActiveB { p with is_active := false } = false := rfl
  have hAC : activeCount s' + 1 = activeCount s := by
    unfold activeCount
    rw [hpos]
    exact countV_setRec_true_false _ hactB hactB' hp
  have hACpos : 1 ≤ activeCount s := countV_pos_of_mem hmemp hactB
  have hrefs_p : refsColl collKey p = true := refsColl_eq_true hactive hmatch
  have hrefs_p' : ∀ m, refsColl m { p with is_active := false } = false :=
    fun m => refsColl_eq_false_of_inactive rfl
  have hCACmatch : collActiveCount s' collKey + 1 = collActiveCount s collKey := by
    unfold collActiveCount
    rw [hpos]
    exact countV_setRec_true_false _ hrefs_p (hrefs_p' _) hp
  have hCACpos : 1 ≤ collActiveCount s collKey := countV_pos_of_mem hmemp hrefs_p
  have hCACother : ∀ mint, mint ≠ collKey →
      collActiveCount s' mint = collActiveCount s mint := by
    intro mint hne
    have hm : p.collection_mint ≠ mint := by
      rw [hmatch]
      exact fun h => hne h.symm
    unfold collActiveCount
    rw [hpos]
    exact countV_setRec_false_false _ (refsColl_eq_false_of_ne hm) (hrefs_p' _) hp
  unfold Inv
  refine ⟨?_, ?_, ?_, ?_, ?_⟩
  · rw [hsp, hglob]
    omega
  · intro e he
    rw [hcolls] at he
    rcases (mem_setRec_of_some _ hndc hc).mp he with heq | ⟨hmem, hne⟩
    · subst heq
      refine ⟨hcmint, ?_⟩
      show c.total_staked - 1 = collActiveCount s' collKey
      omega
    · have h2 := hcoll e hmem
      exact ⟨h2.1, by rw [hCACother e.1 hne]; exact h2.2⟩
  · intro e he hact
    rw [hpos] at he
    rcases (mem_setRec_of_some _ hndp hp).mp he with heq | ⟨hmem, hne⟩
    · rw [heq] at hact
      exact absurd hact (by simp)
    · have h3 := href e hmem hact
      rw [hcolls]
      by_cases hm : e.2.collection_mint = collKey
      · rw [hm, findRec_setRec_self]
        rfl
      · rw [findRec_setRec_ne collKey _ _ hm]
        exact h3
  · rw [hcolls, keys_setRec_of_some _ hc]
    exact hndc
  · rw [hpos, keys_setRec_of_some _ hp]
    exact hndp

/-- `Inv` is preserved by a stake-type mutation: insert a fresh active
position referencing collection `collKey` and increment both counters. -/
theorem Inv_stakeLike (s s' : State) (posKey : PosKey) (collKey : Pubkey)
    (c : CollectionAccount) (pos : StakingPosition)
    (hinv : Inv s)
    (hc : findRec collKey s.collections = some c)
    (hpnone : findRec posKey s.positions = none)
    (hpos : s'.positions = setRec posKey pos s.positions)
    (hcolls : s'.collections =
      setRec collKey { c with total_staked := c.total_staked + 1 } s.collections)
    (hsp : s'.staking_program.total_staked = s.staking_program.total_staked + 1)
    (hposmint : pos.collection_mint = c.collection_mint)
    (hposactive : pos.is_active = true) :
    Inv s' := by
  obtain ⟨hglob, hcoll, href, hndc, hndp⟩ := hinv
  have hmemc : (collKey, c) ∈ s.collections := mem_of_findRec_some hc
  have hcmint : c.collection_mint = collKey := (hcoll _ hmemc).1
  have hctot : c.total_staked = collActiveCount s collKey := (hcoll _ hmemc).2
  have hmint : pos.collection_mint = collKey := by rw [hposmint, hcmint]
  have hactB : isActiveB pos = true := by simp [isActiveB, hposactive]
  have hAC : activeCount s' = activeCount s + 1 := by
    unfold activeCount
    rw [hpos]
    exact countV_setRec_insert_true hactB hpnone
  have hCACmatch : collActiveCount s' collKey = collActiveCount s collKey + 1 := by
    unfold collActiveCount
    rw [hpos]
    exact countV_setRec_insert_true (refsColl_eq_true hposactive hmint) hpnone
  have hCACother : ∀ mint, mint ≠ collKey →
      collActiveCount s' mint = collActiveCount s mint := by
    intro mint hne
    have hm : pos.collection_mint ≠ mint := by
      rw [hmint]
      exact fun h => hne h.symm
    unfold collActiveCount
    rw [hpos]
    exact countV_setRec_insert_false (refsColl_eq_false_of_ne hm) hpnone
  unfold Inv
  refine ⟨?_, ?_, ?_, ?_, ?_⟩
  · rw [hsp, hglob, hAC]
  · intro e he
    rw [hcolls] at he
    rcases (mem_setRec_of_some _ hndc hc).mp he with heq | ⟨hmem, hne⟩
    · subst heq
      refine ⟨hcmint, ?_⟩
      show c.total_staked + 1 = collActiveCount s' collKey
      omega
    · have h2 := hcoll e hmem
      exact ⟨h2.1, by rw [hCACother e.1 hne]; exact h2.2⟩
  · intro e he hact
    rw [hpos] at he
    rcases (mem_setRec_of_none hpnone).mp he with hmem | heq
    · have h3 := href e hmem hact
      rw [hcolls]
      by_cases hm : e.2.collection_mint = collKey
      · rw [hm, findRec_setRec_self]
        rfl
      · rw [findRec_setRec_ne collKey _ _ hm]
        exact h3
    · rw [hcolls, heq]
      show (findRec pos.collection_mint
        (setRec collKey { c with total_staked := c.total_staked + 1 } s.collections)).isSome = true
      rw [hmint, findRec_setRec_self]
      rfl
  · rw [hcolls, keys_setRec_of_some _ hc]
    exact hndc
  · rw [hpos, keys_setRec_of_none hpnone]
    have hnotin : posKey ∉ s.positions.map Prod.fst := findRec_eq_none_iff.mp hpnone
    rw [List.nodup_append]
    refine ⟨hndp, List.nodup_singleton _, ?_⟩
    intro a ha hmem
    rw [List.mem_singleton] at hmem
    subst hmem
    exact hnotin ha

/-- `Inv` is preserved when a collection record is rewritten without
changing its `collection_mint` or `total_staked` and nothing else that
`Inv` mentions changes. -/
theorem Inv_collRewrite (s s' : State) (collKey : Pubkey)
    (c c' : CollectionAccount)
    (hinv : Inv s)
    (hc : findRec collKey s.collections = some c)
    (hcolls : s'.collections = setRec collKey c' s.collections)
    (hpos : s'.positions = s.positions)
    (hsp : s'.staking_program.total_staked = s.staking_program.total_staked)
    (hmint : c'.collection_mint = c.collection_mint)
    (htot : c'.total_staked = c.total_staked) :
    Inv s' := by
  obtain ⟨hglob, hcoll, href, hndc, hndp⟩ := hinv
  have hmemc : (collKey, c) ∈ s.collections := mem_of_findRec_some hc
  have hcmint : c.collection_mint = collKey := (hcoll _ hmemc).1
  have hAC : activeCount s' = activeCount s := by
    unfold activeCount
    rw [hpos]
  have hCAC : ∀ mint, collActiveCount s' mint = collActiveCount s mint := by
    intro mint
    unfold collActiveCount
    rw [hpos]
  unfold Inv
  refine ⟨?_, ?_, ?_, ?_, ?_⟩
  · rw [hsp, hglob, hAC]
  · intro e he
    rw [hcolls] at he
    rcases (mem_setRec_of_some _ hndc hc).mp he with heq | ⟨hmem, hne⟩
    · subst heq
      refine ⟨by rw [hmint, hcmint], ?_⟩
      show c'.total_staked = collActiveCount s' collKey
      rw [htot, hCAC, ← (hcoll _ hmemc).2]
    · have h2 := hcoll e hmem
      exact ⟨h2.1, by rw [hCAC]; exact h2.2⟩
  · intro e he hact
    rw [hpos] at he
    have h3 := href e he hact
    rw [hcolls]
    by_cases hm : e.2.collection_mint = collKey
    · rw [hm, findRec_setRec_self]
      rfl
    · rw [findRec_setRec_ne collKey _ _ hm]
      exact h3
  · rw [hcolls, keys_setRec_of_some _ hc]
    exact hndc
  · rw [hpos]
    exact hndp

/-- `Inv` is preserved by any mutation that leaves positions, collections
and the global `total_staked` counter untouched (admin creation, pause
toggling, emergency-request creation). -/
theorem Inv_unchangedCore (s s' : State)
    (hinv : Inv s)
    (hpos : s'.positions = s.positions)
    (hcolls : s'.collections = s.collections)
    (hsp : s'.staking_program.total_staked = s.staking_program.total_staked) :
    Inv s' := by
  obtain ⟨hglob, hcoll, href, hndc, hndp⟩ := hinv
  have hAC : activeCount s' = activeCount s := by
    unfold activeCount
    rw [hpos]
  have hCAC : ∀ mint, collActiveCount s' mint = collActiveCount s mint := by
    intro mint
    unfold collActiveCount
    rw [hpos]
  unfold Inv
  refine ⟨?_, ?_, ?_, ?_, ?_⟩
  · rw [hsp, hglob, hAC]
  · intro e he
    rw [hcolls] at he
    have h2 := hcoll e he
    exact ⟨h2.1, by rw [hCAC]; exact h2.2⟩
  · intro e he hact
    rw [hpos] at he
    rw [hcolls]
    exact href e he hact
  · rw [hcolls]
    exact hndc
  · rw [hpos]
    exact hndp

/-- `Inv` is preserved by adding a fresh collection record with a zero
counter whose `collection_mint` equals its key. -/
theorem Inv_addColl (s s' : State) (mint : Pubkey) (c0 : CollectionAccount)
    (hinv : Inv s)
    (hnone : findRec mint s.collections = none)
    (hcolls : s'.collections = setRec mint c0 s.collections)
    (hpos : s'.positions = s.positions)
    (hsp : s'.staking_program.total_staked = s.staking_program.total_staked)
    (hmint : c0.collection_mint = mint)
    (htot : c0.total_staked = 0) :
    Inv s' := by
  obtain ⟨hglob, hcoll, href, hndc, hndp⟩ := hinv
  have hAC : activeCount s' = activeCount s := by
    unfold activeCount
    rw [hpos]
  have hCAC : ∀ m, collActiveCount s' m = collActiveCount s m := by
    intro m
    unfold collActiveCount
    rw [hpos]
  have hzero : collActiveCount s mint = 0 := by
    unfold collActiveCount
    rw [countV_eq_zero_iff]
    intro e he
    by_cases hact : e.2.is_active = true
    · by_cases hm : e.2.collection_mint = mint
      · exfalso
        have h3 := href e he hact
        rw [hm, hnone] at h3
        exact absurd h3 (by simp)
      · exact refsColl_eq_false_of_ne hm
    · exact refsColl_eq_false_of_inactive (by simpa using hact)
  unfold Inv
  refine ⟨?_, ?_, ?_, ?_, ?_⟩
  · rw [hsp, hglob, hAC]
  · intro e he
    rw [hcolls] at he
    rcases (mem_setRec_of_none hnone).mp he with hmem | heq
    · have h2 := hcoll e hmem
      exact ⟨h2.1, by rw [hCAC]; exact h2.2⟩
    · subst heq
      refine ⟨hmint, ?_⟩
      show c0.total_staked = collActiveCount s' mint
      rw [htot, hCAC, hzero]
  · intro e he hact
    rw [hpos] at he
    have h3 := href e he hact
    rw [hcolls]
    by_cases hm : e.2.collection_mint = mint
    · rw [hm, findRec_setRec_self]
      rfl
    · rw [findRec_setRec_ne mint _ _ hm]
      exact h3
  · rw [hcolls, keys_setRec_of_none hnone]
    have hnotin : mint ∉ s.collections.map Prod.fst := findRec_eq_none_iff.mp hnone
    rw [List.nodup_append]
    refine ⟨hndc, List.nodup_singleton _, ?_⟩
    intro a ha hmem
    rw [List.mem_singleton] at hmem
    subst hmem
    exact hnotin ha
  · rw [hpos]
    exact hndp

/-! ### Per-instruction preservation of `Inv` -/

theorem inv_claim_nft (s : State) (posKey : PosKey) (collKey ut pt user : Pubkey) (now : Int)
    (hinv : Inv s)
    (hwf : ∀ p, findRec posKey s.positions = some p → p.collection_mint = collKey) :
    Inv (claim_nft s posKey collKey ut pt user now).2 := by
  unfold claim_nft
  repeat' split
  all_goals try exact hinv
  rename_i x1 c hc x2 p hp h1 h2 hpau hact howner htime
  exact Inv_claimLike s _ posKey collKey c p hinv hc hp (not_not.mp hact) (hwf p hp)
    rfl rfl rfl

theorem inv_add_admin (s : State) (authority admin : Pubkey) (now : Int)
    (hinv : Inv s) : Inv (add_admin s authority admin now).2 := by
  unfold add_admin
  repeat' split
  all_goals exact hinv

theorem inv_add_collection (s : State) (authority collection_mint : Pubkey)
    (t6 t12 t36 : Nat) (hinv : Inv s) :
    Inv (add_collection s authority collection_mint t6 t12 t36).2 := by
  unfold add_collection
  repeat' split
  all_goals try exact hinv
  rename_i x hnone hpau
  exact Inv_addColl s _ collection_mint _ hinv hnone rfl rfl rfl rfl rfl

theorem inv_stake_nft (s : State) (duration : Nat) (collKey nft_mint ut pt user : Pubkey)
    (now : Int) (hinv : Inv s) :
    Inv (stake_nft s duration collKey nft_mint ut pt user now).2 := by
  unfold stake_nft
  repeat' split
  all_goals try exact hinv
  rename_i x1 c hc x2 hpnone h1 h2 hpau hdur hcact x3 sd hsd
  exact Inv_stakeLike s _ (nft_mint, user) collKey c _ hinv hc hpnone rfl rfl rfl rfl rfl

theorem inv_admin_unlock (s : State) (posKey : PosKey)
    (collKey adminAcctKey pt ot admin : Pubkey) (reason : String) (now : Int)
    (hinv : Inv s)
    (hwf : ∀ p, findRec posKey s.positions = some p → p.collection_mint = collKey) :
    Inv (admin_unlock s posKey collKey adminAcctKey pt ot admin reason now).2 := by
  unfold admin_unlock
  repeat' split
  all_goals try exact hinv
  rename_i x1 c hc x2 p hp x3 w ha h1 h2 hreason hact hreq hdelay hexec
  exact Inv_claimLike s _ posKey collKey c p hinv hc hp (not_not.mp hact) (hwf p hp)
    rfl rfl rfl

theorem inv_pause_contract (s : State) (adminAcctKey admin : Pubkey) (now : Int)
    (hinv : Inv s) : Inv (pause_contract s adminAcctKey admin now).2 := by
  unfold pause_contract
  repeat' split
  all_goals exact hinv

theorem inv_unpause_contract (s : State) (adminAcctKey admin : Pubkey)
    (hinv : Inv s) : Inv (unpause_contract s adminAcctKey admin).2 := by
  unfold unpause_contract
  repeat' split
  all_goals exact hinv

theorem inv_update_collection_rewards (s : State) (collKey adminAcctKey authority : Pubkey)
    (t6 t12 t36 : Nat) (hinv : Inv s) :
    Inv (update_collection_rewards s collKey adminAcctKey authority t6 t12 t36).2 := by
  unfold update_collection_rewards
  repeat' split
  all_goals try exact hinv
  rename_i x1 c hc x2 w ha hpau
  exact Inv_collRewrite s _ collKey c _ hinv hc rfl rfl rfl rfl rfl

theorem inv_validate_collection (s : State) (collKey adminAcctKey authority : Pubkey)
    (validated : Bool) (hinv : Inv s) :
    Inv (validate_collection s collKey adminAcctKey authority validated).2 := by
  unfold validate_collection
  repeat' split
  all_goals try exact hinv
  rename_i x1 c hc x2 w ha hpau
  exact Inv_collRewrite s _ collKey c _ hinv hc rfl rfl rfl rfl rfl

/-- The account-matching discipline that the program relies on but does
not enforce: a `claim_nft` or `admin_unlock` call supplies the collection
account actually referenced by the position it operates on.  All other
instructions are unconstrained. -/
def opWellFormed (s : State) : Op → Bool
  | .opClaimNft posKey collKey _ _ _ _ =>
      (findRec posKey s.positions).all (fun p => p.collection_mint == collKey)
  | .opAdminUnlock posKey collKey _ _ _ _ _ _ =>
      (findRec posKey s.positions).all (fun p => p.collection_mint == collKey)
  | _ => true

/-- Every instruction preserves `Inv`, provided claim/unlock calls supply
the matching collection account. -/
theorem inv_apply (s : State) (op : Op) (hinv : Inv s)
    (hwf : opWellFormed s op = true) : Inv (apply s op).2 := by
  cases op with
  | opAddAdmin a b n => exact inv_add_admin s a b n hinv
  | opAddCollection a m t6 t12 t36 => exact inv_add_collection s a m t6 t12 t36 hinv
  | opStakeNft d ck nm ut pt u n => exact inv_stake_nft s d ck nm ut pt u n hinv
  | opClaimNft posKey collKey ut pt u n =>
    refine inv_claim_nft s posKey collKey ut pt u n hinv ?_
    intro p hp
    simp only [opWellFormed] at hwf
    rw [hp] at hwf
    simpa using hwf
  | opAdminUnlock posKey collKey ak pt ot adm r n =>
    refine inv_admin_unlock s posKey collKey ak pt ot adm r n hinv ?_
    intro p hp
    simp only [opWellFormed] at hwf
    rw [hp] at hwf
    simpa using hwf
  | opPause ak adm n => exact inv_pause_contract s ak adm n hinv
  | opUnpause ak adm => exact inv_unpause_contract s ak adm hinv
  | opUpdateRewards ck ak a t6 t12 t36 =>
    exact inv_update_collection_rewards s ck ak a t6 t12 t36 hinv
  | opValidateCollection ck ak a v => exact inv_validate_collection s ck ak a v hinv

/-- `opWellFormed` along a whole instruction sequence. -/
def WFSeqB (s : State) : List Op → Bool
  | [] => true
  | op :: rest => opWellFormed s op && WFSeqB (apply s op).2 rest

theorem inv_applySeq (ops : List Op) : ∀ s : State, Inv s → WFSeqB s ops = true →
    Inv (applySeq s ops) := by
  induction ops with
  | nil => intro s h _; exact h
  | cons op rest ih =>
    intro s h hwf
    have h1 := (Bool.and_eq_true _ _).mp hwf
    exact ih _ (inv_apply s op h h1.1) h1.2

theorem WFSeqB_take (ops : List Op) : ∀ (s : State) (n : Nat), WFSeqB s ops = true →
    WFSeqB s (ops.take n) = true := by
  induction ops with
  | nil =>
    intro s n h
    cases n <;> rfl
  | cons op rest ih =>
    intro s n h
    cases n with
    | zero => rfl
    | succ m =>
      have h1 := (Bool.and_eq_true _ _).mp h
      show (opWellFormed s op && WFSeqB (apply s op).2 (rest.take m)) = true
      rw [Bool.and_eq_true]
      exact ⟨h1.1, ih _ m h1.2⟩

/-- Every instruction either succeeds or returns the state unchanged —
the transactional shape of every handler. -/
theorem apply_ok_or_unchanged (s : State) (op : Op) :
    (apply s op).1 = Except.ok () ∨ (apply s op).2 = s := by
  cases op with
  | opAddAdmin a b n =>
    show (add_admin s a b n).1 = Except.ok () ∨ (add_admin s a b n).2 = s
    unfold add_admin
    repeat' split
    all_goals first | (left; rfl) | (right; rfl)
  | opAddCollection a m t6 t12 t36 =>
    show (add_collection s a m t6 t12 t36).1 = Except.ok () ∨
      (add_collection s a m t6 t12 t36).2 = s
    unfold add_collection
    repeat' split
    all_goals first | (left; rfl) | (right; rfl)
  | opStakeNft d ck nm ut pt u n =>
    show (stake_nft s d ck nm ut pt u n).1 = Except.ok () ∨
      (stake_nft s d ck nm ut pt u n).2 = s
    unfold stake_nft
    repeat' split
    all_goals first | (left; rfl) | (right; rfl)
  | opClaimNft pk ck ut pt u n =>
    show (claim_nft s pk ck ut pt u n).1 = Except.ok () ∨ (claim_nft s pk ck ut pt u n).2 = s
    unfold claim_nft
    repeat' split
    all_goals first | (left; rfl) | (right; rfl)
  | opAdminUnlock pk ck ak pt ot adm r n =>
    show (admin_unlock s pk ck ak pt ot adm r n).1 = Except.ok () ∨
      (admin_unlock s pk ck ak pt ot adm r n).2 = s
    unfold admin_unlock
    repeat' split
    all_goals first | (left; rfl) | (right; rfl)
  | opPause ak adm n =>
    show (pause_contract s ak adm n).1 = Except.ok () ∨ (pause_contract s ak adm n).2 = s
    unfold pause_contract
    repeat' split
    all_goals first | (left; rfl) | (right; rfl)
  | opUnpause ak adm =>
    show (unpause_contract s ak adm).1 = Except.ok () ∨ (unpause_contract s ak adm).2 = s
    unfold unpause_contract
    repeat' split
    all_goals first | (left; rfl) | (right; rfl)
  | opUpdateRewards ck ak a t6 t12 t36 =>
    show (update_collection_rewards s ck ak a t6 t12 t36).1 = Except.ok () ∨
      (update_collection_rewards s ck ak a t6 t12 t36).2 = s
    unfold update_collection_rewards
    repeat' split
    all_goals first | (left; rfl) | (right; rfl)
  | opValidateCollection ck ak a v =>
    show (validate_collection s ck ak a v).1 = Except.ok () ∨
      (validate_collection s ck ak a v).2 = s
    unfold validate_collection
    repeat' split
    all_goals first | (left; rfl) | (right; rfl)

/-! ### Demo state used by the witnesses -/

/-- Pre-existing token accounts: 100 and 102 belong to wallet 3, 101 to
the program vault 55, and 200 to wallet 9. -/
def demoTokens : List (Pubkey × Pubkey) := [(100, 3), (101, 55), (102, 3), (200, 9)]

/-- A short history: some caller (pubkey 2, distinct from the authority 1)
adds itself as admin, two collections 10 and 11 are added, and wallet 3
stakes NFT 20 into collection 10 at time 0 with tier 0. -/
def demoOps : List Op :=
  [.opAddAdmin 1 2 0,
   .opAddCollection 1 10 5 10 20,
   .opAddCollection 1 11 5 10 20,
   .opStakeNft 0 10 20 100 101 3 0]

/-- The state after running `demoOps` from a fresh initialization. -/
def demoState : State := applySeq (initState 1 2 demoTokens) demoOps

/-! ### Claim theorems -/

theorem EMERGENCY_DELAY_eq : EMERGENCY_DELAY = 86400 := by
  norm_num [EMERGENCY_DELAY]

/-- C2: `admin_unlock` on an active position follows the two-phase state
machine.  With the accounts resolving (collection, position, some admin
account, token accounts), a non-empty reason and an active position:
if no emergency request exists (`requested_at == 0`) the call records
requester, `requested_at = now`, the reason and `executed = false` and
returns success without deactivating the position, moving the asset or
touching the counters; if a request exists it fails `EmergencyDelayNotMet`
when `now < requested_at + 86400`, fails `EmergencyRequestAlreadyExecuted`
when already executed, and otherwise succeeds, setting `executed = true`,
deactivating the position, logging the transfer and decrementing both
counters. -/
theorem c2_admin_unlock_two_phase (s : State) (posKey : PosKey)
    (collKey adminAcctKey pt ot admin : Pubkey) (reason : String) (now : Int)
    (c : CollectionAccount) (p : StakingPosition) (a : AdminAccount)
    (hc : findRec collKey s.collections = some c)
    (hp : findRec posKey s.positions = some p)
    (ha : findRec adminAcctKey s.admins = some a)
    (ht1 : (findRec pt s.token_owner).isNone = false)
    (ht2 : (findRec ot s.token_owner).isNone = false)
    (hreason : ¬ reason = "")
    (hactive : p.is_active = true) :
    ((emergencyOf s posKey).requested_at = 0 →
      (admin_unlock s posKey collKey adminAcctKey pt ot admin reason now).1 = Except.ok () ∧
      (admin_unlock s posKey collKey adminAcctKey pt ot admin reason now).2.emergencies =
        setRec posKey
          { requester := admin, requested_at := now, reason := reason, executed := false }
          s.emergencies ∧
      (admin_unlock s posKey collKey adminAcctKey pt ot admin reason now).2.positions =
        s.positions ∧
      (admin_unlock s posKey collKey adminAcctKey pt ot admin reason now).2.transfers =
        s.transfers ∧
      (admin_unlock s posKey collKey adminAcctKey pt ot admin reason now).2.staking_program =
        s.staking_program ∧
      (admin_unlock s posKey collKey adminAcctKey pt ot admin reason now).2.collections =
        s.collections) ∧
    (¬ (emergencyOf s posKey).requested_at = 0 →
      now < (emergencyOf s posKey).requested_at + 86400 →
      admin_unlock s posKey collKey adminAcctKey pt ot admin reason now =
        (Except.error StakingError.EmergencyDelayNotMet, s)) ∧
    (¬ (emergencyOf s posKey).requested_at = 0 →
      ¬ now < (emergencyOf s posKey).requested_at + 86400 →
      (emergencyOf s posKey).executed = true →
      admin_unlock s posKey collKey adminAcctKey pt ot admin reason now =
        (Except.error StakingError.EmergencyRequestAlreadyExecuted, s)) ∧
    (¬ (emergencyOf s posKey).requested_at = 0 →
      ¬ now < (emergencyOf s posKey).requested_at + 86400 →
      (emergencyOf s posKey).executed = false →
      (admin_unlock s posKey collKey adminAcctKey pt ot admin reason now).1 = Except.ok () ∧
      (admin_unlock s posKey collKey adminAcctKey pt ot admin reason now).2.emergencies =
        setRec posKey { emergencyOf s posKey with executed := true } s.emergencies ∧
      (admin_unlock s posKey collKey adminAcctKey pt ot admin reason now).2.positions =
        setRec posKey { p with is_active := false } s.positions ∧
      (admin_unlock s posKey collKey adminAcctKey pt ot admin reason now).2.transfers =
        s.transfers ++ [⟨pt, ot, 1⟩] ∧
      (admin_unlock s posKey collKey adminAcctKey pt ot admin reason now).2.staking_program.total_staked =
        s.staking_program.total_staked - 1 ∧
      (admin_unlock s posKey collKey adminAcctKey pt ot admin reason now).2.collections =
        setRec collKey { c with total_staked := c.total_staked - 1 } s.collections) := by
  have hd : EMERGENCY_DELAY = 86400 := EMERGENCY_DELAY_eq
  refine ⟨?_, ?_, ?_, ?_⟩
  · intro hreq
    simp [admin_unlock, hc, hp, ha, ht1, ht2, hreason, hactive, hreq]
  · intro hreq hlt
    simp [admin_unlock, hc, hp, ha, ht1, ht2, hreason, hactive, hreq, hd, hlt]
  · intro hreq hlt hexec
    simp [admin_unlock, hc, hp, ha, ht1, ht2, hreason, hactive, hreq, hd, hlt, hexec]
  · intro hreq hlt hexec
    simp [admin_unlock, hc, hp, ha, ht1, ht2, hreason, hactive, hreq, hd, hlt, hexec]

/-- Witness for C2: in the demo state, the first emergency call on the
staked position succeeds and records a pending request. -/
theorem c2_witness :
    (admin_unlock demoState (20, 3) 10 2 101 102 2 "stuck" 1000).1 = Except.ok () ∧
    (admin_unlock demoState (20, 3) 10 2 101 102 2 "stuck" 1000).2.emergencies =
      setRec (20, 3)
        { requester := 2, requested_at := 1000, reason := "stuck", executed := false }
        demoState.emergencies := by
  have h := c2_admin_unlock_two_phase demoState (20, 3) 10 2 101 102 2 "stuck" 1000
    { collection_mint := 10, six_month_tickets := 5, twelve_month_tickets := 10,
      three_year_tickets := 20, six_month_multiplier := 11000,
      twelve_month_multiplier := 12500, three_year_multiplier := 15000,
      is_active := true, is_validated := false, total_staked := 1 }
    { owner := 3, nft_mint := 20, collection_mint := 10, staked_at := 0,
      unlock_at := 15552000, duration := 0, is_active := true, total_rewards_earned := 0 }
    { admin := 2, is_active := true, added_at := 0 }
    (by decide) (by decide) (by decide) (by decide) (by decide) (by decide) (by decide)
  exact ⟨(h.1 (by decide)).1, (h.1 (by decide)).2.1⟩

theorem SIX_MONTHS_eq : SIX_MONTHS = 15552000 := by norm_num [SIX_MONTHS]

theorem TWELVE_MONTHS_eq : TWELVE_MONTHS = 31536000 := by norm_num [TWELVE_MONTHS]

theorem THREE_YEARS_eq : THREE_YEARS = 94608000 := by norm_num [THREE_YEARS]

/-- C4: with the accounts resolving, the system unpaused and the supplied
collection active, `stake_nft` with tier 0/1/2 creates a position whose
`unlock_at - staked_at` is exactly 15552000 / 31536000 / 94608000 seconds
(180, 365, 1095 days), and any tier `≥ 3` fails with `InvalidDuration`. -/
theorem c4_stake_durations (s : State) (duration : Nat)
    (collKey nft_mint ut pt user : Pubkey) (now : Int) (c : CollectionAccount)
    (hc : findRec collKey s.collections = some c)
    (hpnone : findRec (nft_mint, user) s.positions = none)
    (ht1 : (findRec ut s.token_owner).isNone = false)
    (ht2 : (findRec pt s.token_owner).isNone = false)
    (hpau : s.staking_program.is_paused = false)
    (hcact : c.is_active = true) :
    (duration = 0 →
      (stake_nft s duration collKey nft_mint ut pt user now).1 = Except.ok () ∧
      findRec (nft_mint, user) (stake_nft s duration collKey nft_mint ut pt user now).2.positions =
        some { owner := user, nft_mint := nft_mint, collection_mint := c.collection_mint,
               staked_at := now, unlock_at := now + 15552000, duration := 0,
               is_active := true, total_rewards_earned := 0 } ∧
      (now + 15552000) - now = 15552000) ∧
    (duration = 1 →
      (stake_nft s duration collKey nft_mint ut pt user now).1 = Except.ok () ∧
      findRec (nft_mint, user) (stake_nft s duration collKey nft_mint ut pt user now).2.positions =
        some { owner := user, nft_mint := nft_mint, collection_mint := c.collection_mint,
               staked_at := now, unlock_at := now + 31536000, duration := 1,
               is_active := true, total_rewards_earned := 0 } ∧
      (now + 31536000) - now = 31536000) ∧
    (duration = 2 →
      (stake_nft s duration collKey nft_mint ut pt user now).1 = Except.ok () ∧
      findRec (nft_mint, user) (stake_nft s duration collKey nft_mint ut pt user now).2.positions =
        some { owner := user, nft_mint := nft_mint, collection_mint := c.collection_mint,
               staked_at := now, unlock_at := now + 94608000, duration := 2,
               is_active := true, total_rewards_earned := 0 } ∧
      (now + 94608000) - now = 94608000) ∧
    (3 ≤ duration →
      stake_nft s duration collKey nft_mint ut pt user now =
        (Except.error StakingError.InvalidDuration, s)) := by
  refine ⟨?_, ?_, ?_, ?_⟩
  · intro hdur
    subst hdur
    simp [stake_nft, hc, hpnone, ht1, ht2, hpau, hcact, durationSeconds,
      findRec_setRec_self, SIX_MONTHS_eq]
  · intro hdur
    subst hdur
    simp [stake_nft, hc, hpnone, ht1, ht2, hpau, hcact, durationSeconds,
      findRec_setRec_self, TWELVE_MONTHS_eq]
  · intro hdur
    subst hdur
    simp [stake_nft, hc, hpnone, ht1, ht2, hpau, hcact, durationSeconds,
      findRec_setRec_self, THREE_YEARS_eq]
  · intro hdur
    have hn : ¬ duration ≤ 2 := by omega
    simp [stake_nft, hc, hpnone, ht1, ht2, hpau, hn]

/-- Witness for C4: wallet 3 stakes NFT 21 with tier 1 in the demo state;
the created position unlocks exactly 31536000 seconds after `staked_at`,
and tier 7 fails with `InvalidDuration`. -/
theorem c4_witness :
    ((stake_nft demoState 1 10 21 100 101 3 500).1 = Except.ok () ∧
      findRec (21, 3) (stake_nft demoState 1 10 21 100 101 3 500).2.positions =
        some { owner := 3, nft_mint := 21, collection_mint := 10, staked_at := 500,
               unlock_at := 500 + 31536000, duration := 1, is_active := true,
               total_rewards_earned := 0 } ∧
      ((500 : Int) + 31536000) - 500 = 31536000) ∧
    stake_nft demoState 7 10 21 100 101 3 500 =
      (Except.error StakingError.InvalidDuration, demoState) := by
  constructor
  · exact (c4_stake_durations demoState 1 10 21 100 101 3 500
      { collection_mint := 10, six_month_tickets := 5, twelve_month_tickets := 10,
        three_year_tickets := 20, six_month_multiplier := 11000,
        twelve_month_multiplier := 12500, three_year_multiplier := 15000,
        is_active := true, is_validated := false, total_staked := 1 }
      (by decide) (by decide) (by decide) (by decide) (by decide) (by decide)).2.1 rfl
  · exact (c4_stake_durations demoState 7 10 21 100 101 3 500
      { collection_mint := 10, six_month_tickets := 5, twelve_month_tickets := 10,
        three_year_tickets := 20, six_month_multiplier := 11000,
        twelve_month_multiplier := 12500, three_year_multiplier := 15000,
        is_active := true, is_validated := false, total_staked := 1 }
      (by decide) (by decide) (by decide) (by decide) (by decide) (by decide)).2.2.2
      (by omega)

/-- C5: with the accounts resolving and the system unpaused, `claim_nft`
on an active position fails `StakingPeriodNotCompleted` when called by the
owner before `unlock_at`; fails `NotPositionOwner` for any non-owner
caller; succeeds at or after `unlock_at` for the owner, deactivating the
position; fails `PositionNotActive` on an inactive position; and after a
successful claim any further claim on the same position (any caller, any
time, any resolving collection/token accounts) fails `PositionNotActive`. -/
theorem c5_claim_guards (s : State) (posKey : PosKey) (collKey ut pt user : Pubkey)
    (now : Int) (collKey2 ut2 pt2 user2 : Pubkey) (now2 : Int)
    (c : CollectionAccount) (p : StakingPosition) (c2 : CollectionAccount)
    (hc : findRec collKey s.collections = some c)
    (hp : findRec posKey s.positions = some p)
    (ht1 : (findRec ut s.token_owner).isNone = false)
    (ht2 : (findRec pt s.token_owner).isNone = false)
    (hpau : s.staking_program.is_paused = false)
    (hc2 : findRec collKey2 s.collections = some c2)
    (ht1b : (findRec ut2 s.token_owner).isNone = false)
    (ht2b : (findRec pt2 s.token_owner).isNone = false) :
    (p.is_active = true → p.owner = user → now < p.unlock_at →
      claim_nft s posKey collKey ut pt user now =
        (Except.error StakingError.StakingPeriodNotCompleted, s)) ∧
    (p.is_active = true → ¬ p.owner = user →
      claim_nft s posKey collKey ut pt user now =
        (Except.error StakingError.NotPositionOwner, s)) ∧
    (p.is_active = false →
      claim_nft s posKey collKey ut pt user now =
        (Except.error StakingError.PositionNotActive, s)) ∧
    (p.is_active = true → p.owner = user → ¬ now < p.unlock_at →
      claim_nft s posKey collKey ut pt user now =
        (Except.ok (), { s with
          positions := setRec posKey { p with is_active := false } s.positions
          transfers := s.transfers ++ [⟨pt, ut, 1⟩]
          staking_program := { s.staking_program with
            total_staked := s.staking_program.total_staked - 1 }
          collections := setRec collKey { c with total_staked := c.total_staked - 1 }
            s.collections }) ∧
      claim_nft (claim_nft s posKey collKey ut pt user now).2 posKey collKey2 ut2 pt2
          user2 now2 =
        (Except.error StakingError.PositionNotActive,
          (claim_nft s posKey collKey ut pt user now).2)) := by
  refine ⟨?_, ?_, ?_, ?_⟩
  · intro hact howner htime
    simp [claim_nft, hc, hp, ht1, ht2, hpau, hact, howner, htime]
  · intro hact howner
    simp [claim_nft, hc, hp, ht1, ht2, hpau, hact, howner]
  · intro hact
    simp [claim_nft, hc, hp, ht1, ht2, hpau, hact]
  · intro hact howner htime
    have hr : claim_nft s posKey collKey ut pt user now =
        (Except.ok (), { s with
          positions := setRec posKey { p with is_active := false } s.positions
          transfers := s.transfers ++ [⟨pt, ut, 1⟩]
          staking_program := { s.staking_program with
            total_staked := s.staking_program.total_staked - 1 }
          collections := setRec collKey { c with total_staked := c.total_staked - 1 }
            s.collections }) := by
      simp [claim_nft, hc, hp, ht1, ht2, hpau, hact, howner, htime]
    refine ⟨hr, ?_⟩
    rw [hr]
    obtain ⟨c3, hc3⟩ : ∃ c3, findRec collKey2
        (setRec collKey { c with total_staked := c.total_staked - 1 } s.collections) =
          some c3 := by
      by_cases hk : collKey2 = collKey
      · subst hk
        exact ⟨_, findRec_setRec_self _ _ _⟩
      · refine ⟨c2, ?_⟩
        rw [findRec_setRec_ne collKey collKey2 _ hk]
        exact hc2
    have hpfound : findRec posKey
        (setRec posKey { p with is_active := false } s.positions) =
          some { p with is_active := false } := findRec_setRec_self _ _ _
    simp [claim_nft, hc3, hpfound, ht1b, ht2b, hpau]

/-- Witness for C5: in the demo state, claiming one second early fails
`StakingPeriodNotCompleted`, a non-owner claim fails `NotPositionOwner`,
and the claim at `unlock_at` succeeds while the immediate re-claim fails
`PositionNotActive`. -/
theorem c5_witness :
    claim_nft demoState (20, 3) 10 100 101 3 15551999 =
      (Except.error StakingError.StakingPeriodNotCompleted, demoState) ∧
    claim_nft demoState (20, 3) 10 100 101 4 15552000 =
      (Except.error StakingError.NotPositionOwner, demoState) ∧
    (claim_nft demoState (20, 3) 10 100 101 3 15552000).1 = Except.ok () ∧
    claim_nft (claim_nft demoState (20, 3) 10 100 101 3 15552000).2 (20, 3) 10 100 101
        3 16000000 =
      (Except.error StakingError.PositionNotActive,
        (claim_nft demoState (20, 3) 10 100 101 3 15552000).2) := by
  have h := c5_claim_guards demoState (20, 3) 10 100 101 3 15551999 10 100 101 3 16000000
    { collection_mint := 10, six_month_tickets := 5, twelve_month_tickets := 10,
      three_year_tickets := 20, six_month_multiplier := 11000,
      twelve_month_multiplier := 12500, three_year_multiplier := 15000,
      is_active := true, is_validated := false, total_staked := 1 }
    { owner := 3, nft_mint := 20, collection_mint := 10, staked_at := 0,
      unlock_at := 15552000, duration := 0, is_active := true, total_rewards_earned := 0 }
    { collection_mint := 10, six_month_tickets := 5, twelve_month_tickets := 10,
      three_year_tickets := 20, six_month_multiplier := 11000,
      twelve_month_multiplier := 12500, three_year_multiplier := 15000,
      is_active := true, is_validated := false, total_staked := 1 }
    (by decide) (by decide) (by decide) (by decide) (by decide) (by decide) (by decide)
    (by decide)
  have h2 := c5_claim_guards demoState (20, 3) 10 100 101 4 15552000 10 100 101 3 16000000
    { collection_mint := 10, six_month_tickets := 5, twelve_month_tickets := 10,
      three_year_tickets := 20, six_month_multiplier := 11000,
      twelve_month_multiplier := 12500, three_year_multiplier := 15000,
      is_active := true, is_validated := false, total_staked := 1 }
    { owner := 3, nft_mint := 20, collection_mint := 10, staked_at := 0,
      unlock_at := 15552000, duration := 0, is_active := true, total_rewards_earned := 0 }
    { collection_mint := 10, six_month_tickets := 5, twelve_month_tickets := 10,
      three_year_tickets := 20, six_month_multiplier := 11000,
      twelve_month_multiplier := 12500, three_year_multiplier := 15000,
      is_active := true, is_validated := false, total_staked := 1 }
    (by decide) (by decide) (by decide) (by decide) (by decide) (by decide) (by decide)
    (by decide)
  have h3 := c5_claim_guards demoState (20, 3) 10 100 101 3 15552000 10 100 101 3 16000000
    { collection_mint := 10, six_month_tickets := 5, twelve_month_tickets := 10,
      three_year_tickets := 20, six_month_multiplier := 11000,
      twelve_month_multiplier := 12500, three_year_multiplier := 15000,
      is_active := true, is_validated := false, total_staked := 1 }
    { owner := 3, nft_mint := 20, collection_mint := 10, staked_at := 0,
      unlock_at := 15552000, duration := 0, is_active := true, total_rewards_earned := 0 }
    { collection_mint := 10, six_month_tickets := 5, twelve_month_tickets := 10,
      three_year_tickets := 20, six_month_multiplier := 11000,
      twelve_month_multiplier := 12500, three_year_multiplier := 15000,
      is_active := true, is_validated := false, total_staked := 1 }
    (by decide) (by decide) (by decide) (by decide) (by decide) (by decide) (by decide)
    (by decide)
  refine ⟨h.1 (by decide) (by decide) (by decide), h2.2.1 (by decide) (by decide), ?_, ?_⟩
  · rw [(h3.2.2.2 (by decide) (by decide) (by decide)).1]
  · exact (h3.2.2.2 (by decide) (by decide) (by decide)).2

/-- The demo state after an admin pauses the contract. -/
def demoPaused : State := (pause_contract demoState 2 2 50).2

/-- C1 (amended): while `is_paused` is set, `add_admin`, `add_collection`,
`stake_nft`, `claim_nft`, `update_collection_rewards` and
`validate_collection` all fail with `ContractPaused` and leave the state
unchanged (given their accounts resolve), and the failure leaves the
system paused; `admin_unlock`, however, performs no pause check: it never
returns `ContractPaused` and its result keeps `is_paused` set, so it
operates normally during a pause. -/
theorem c1_pause_gate (s : State)
    (authority aId : Pubkey) (now1 : Int)
    (mintC : Pubkey) (t6 t12 t36 : Nat)
    (d : Nat) (ckS nmS utS ptS uS : Pubkey) (nowS : Int)
    (pkC : PosKey) (ckC utC ptC uC : Pubkey) (nowC : Int)
    (ckU akU : Pubkey) (t6u t12u t36u : Nat)
    (ckV akV : Pubkey) (vV : Bool)
    (pkA : PosKey) (ckA akA ptA otA admA : Pubkey) (rA : String) (nowA : Int)
    (cS cC cU cV : CollectionAccount) (pC : StakingPosition) (aU aV : AdminAccount)
    (hpaused : s.staking_program.is_paused = true)
    (h1 : findRec aId s.admins = none)
    (h2 : findRec mintC s.collections = none)
    (h3 : findRec ckS s.collections = some cS)
    (h4 : findRec (nmS, uS) s.positions = none)
    (h5 : (findRec utS s.token_owner).isNone = false)
    (h6 : (findRec ptS s.token_owner).isNone = false)
    (h7 : findRec ckC s.collections = some cC)
    (h8 : findRec pkC s.positions = some pC)
    (h9 : (findRec utC s.token_owner).isNone = false)
    (h10 : (findRec ptC s.token_owner).isNone = false)
    (h11 : findRec ckU s.collections = some cU)
    (h12 : findRec akU s.admins = some aU)
    (h13 : findRec ckV s.collections = some cV)
    (h14 : findRec akV s.admins = some aV) :
    add_admin s authority aId now1 = (Except.error StakingError.ContractPaused, s) ∧
    add_collection s authority mintC t6 t12 t36 =
      (Except.error StakingError.ContractPaused, s) ∧
    stake_nft s d ckS nmS utS ptS uS nowS = (Except.error StakingError.ContractPaused, s) ∧
    claim_nft s pkC ckC utC ptC uC nowC = (Except.error StakingError.ContractPaused, s) ∧
    update_collection_rewards s ckU akU authority t6u t12u t36u =
      (Except.error StakingError.ContractPaused, s) ∧
    validate_collection s ckV akV authority vV =
      (Except.error StakingError.ContractPaused, s) ∧
    (admin_unlock s pkA ckA akA ptA otA admA rA nowA).1 ≠
      Except.error StakingError.ContractPaused ∧
    (admin_unlock s pkA ckA akA ptA otA admA rA nowA).2.staking_program.is_paused = true := by
  refine ⟨?_, ?_, ?_, ?_, ?_, ?_, ?_, ?_⟩
  · simp [add_admin, h1, hpaused]
  · simp [add_collection, h2, hpaused]
  · simp [stake_nft, h3, h4, h5, h6, hpaused]
  · simp [claim_nft, h7, h8, h9, h10, hpaused]
  · simp [update_collection_rewards, h11, h12, hpaused]
  · simp [validate_collection, h13, h14, hpaused]
  · unfold admin_unlock
    repeat' split
    all_goals simp
  · unfold admin_unlock
    repeat' split
    all_goals exact hpaused

/-- Witness for C1 (amended): in the paused demo state all six guarded
instructions reject with `ContractPaused`, while `admin_unlock` does not. -/
theorem c1_witness :
    add_admin demoPaused 1 7 60 = (Except.error StakingError.ContractPaused, demoPaused) ∧
    stake_nft demoPaused 0 10 21 100 101 3 60 =
      (Except.error StakingError.ContractPaused, demoPaused) ∧
    claim_nft demoPaused (20, 3) 10 100 101 3 15552000 =
      (Except.error StakingError.ContractPaused, demoPaused) ∧
    (admin_unlock demoPaused (20, 3) 10 2 101 102 2 "rescue" 1000).1 ≠
      Except.error StakingError.ContractPaused := by
  have h := c1_pause_gate demoPaused 1 7 60 8 1 2 3 0 10 21 100 101 3 60
    (20, 3) 10 100 101 3 15552000 10 2 4 5 6 11 2 true
    (20, 3) 10 2 101 102 2 "rescue" 1000
    { collection_mint := 10, six_month_tickets := 5, twelve_month_tickets := 10,
      three_year_tickets := 20, six_month_multiplier := 11000,
      twelve_month_multiplier := 12500, three_year_multiplier := 15000,
      is_active := true, is_validated := false, total_staked := 1 }
    { collection_mint := 10, six_month_tickets := 5, twelve_month_tickets := 10,
      three_year_tickets := 20, six_month_multiplier := 11000,
      twelve_month_multiplier := 12500, three_year_multiplier := 15000,
      is_active := true, is_validated := false, total_staked := 1 }
    { collection_mint := 10, six_month_tickets := 5, twelve_month_tickets := 10,
      three_year_tickets := 20, six_month_multiplier := 11000,
      twelve_month_multiplier := 12500, three_year_multiplier := 15000,
      is_active := true, is_validated := false, total_staked := 1 }
    { collection_mint := 11, six_month_tickets := 5, twelve_month_tickets := 10,
      three_year_tickets := 20, six_month_multiplier := 11000,
      twelve_month_multiplier := 12500, three_year_multiplier := 15000,
      is_active := true, is_validated := false, total_staked := 0 }
    { owner := 3, nft_mint := 20, collection_mint := 10, staked_at := 0,
      unlock_at := 15552000, duration := 0, is_active := true, total_rewards_earned := 0 }
    { admin := 2, is_active := true, added_at := 0 }
    { admin := 2, is_active := true, added_at := 0 }
    (by decide) (by decide) (by decide) (by decide) (by decide) (by decide) (by decide)
    (by decide) (by decide) (by decide) (by decide) (by decide) (by decide) (by decide)
    (by decide)
  exact ⟨h.1, h.2.2.1, h.2.2.2.1, h.2.2.2.2.2.2.1⟩

/-- C1 counterexample: the claim as frozen says *every* mutating
operation other than pause/unpause — explicitly including `admin_unlock`
— fails with `ContractPaused` while paused.  In the paused demo state,
`admin_unlock` succeeds and creates an emergency-request record. -/
theorem c1_counterexample :
    demoPaused.staking_program.is_paused = true ∧
    (admin_unlock demoPaused (20, 3) 10 2 101 102 2 "rescue" 1000).1 = Except.ok () ∧
    findRec (20, 3)
      (admin_unlock demoPaused (20, 3) 10 2 101 102 2 "rescue" 1000).2.emergencies =
      some { requester := 2, requested_at := 1000, reason := "rescue", executed := false } ∧
    findRec (20, 3) demoPaused.emergencies = none := by decide

/-- C6: the code performs no authority check in `add_admin` or
`add_collection`.  From a fresh initialization with authority 1, the
unrelated caller 2 successfully creates an admin record and a collection
record (the claim requires both calls to fail). -/
theorem c6_no_authority_check :
    ¬ (2 = (initState 1 2 demoTokens).staking_program.authority) ∧
    (add_admin (initState 1 2 demoTokens) 2 7 0).1 = Except.ok () ∧
    findRec 7 (add_admin (initState 1 2 demoTokens) 2 7 0).2.admins =
      some { admin := 7, is_active := true, added_at := 0 } ∧
    (add_collection (initState 1 2 demoTokens) 2 9 1 2 3).1 = Except.ok () ∧
    (findRec 9 (add_collection (initState 1 2 demoTokens) 2 9 1 2 3).2.collections).isSome =
      true := by decide

/-- The demo state after a first emergency request naming the
attacker-controlled token account 200 as `owner_token_account`. -/
def c7Mid : State := (admin_unlock demoState (20, 3) 10 2 101 200 2 "seized" 1000).2

/-- C7: the post-delay `admin_unlock` transfers the asset to whatever
token account was supplied as `owner_token_account` — here account 200,
owned by wallet 9 — although the position's recorded owner is wallet 3.
No constraint ties the destination to the owner. -/
theorem c7_transfer_to_arbitrary_account :
    (admin_unlock c7Mid (20, 3) 10 2 101 200 2 "seized" 87400).1 = Except.ok () ∧
    (admin_unlock c7Mid (20, 3) 10 2 101 200 2 "seized" 87400).2.transfers =
      [{ source := 100, dest := 101, amount := 1 },
       { source := 101, dest := 200, amount := 1 }] ∧
    findRec 200 demoState.token_owner = some 9 ∧
    findRec (20, 3) demoState.positions =
      some { owner := 3, nft_mint := 20, collection_mint := 10, staked_at := 0,
             unlock_at := 15552000, duration := 0, is_active := true,
             total_rewards_earned := 0 } ∧
    ¬ ((9 : Pubkey) = 3) := by decide

/-- C8 (amended): `pause_contract` and `unpause_contract` require only
that *some* existing `AdminAccount` be supplied — with no check that it
belongs to the caller, that its `is_active` flag is true, or that the
contract is in the opposite pause state — and unconditionally overwrite
the pause fields (`paused_at := now` on pause, `paused_at := 0` on
unpause). -/
theorem c8_pause_unguarded (s : State) (adminAcctKey caller : Pubkey) (now : Int)
    (a : AdminAccount) (ha : findRec adminAcctKey s.admins = some a) :
    pause_contract s adminAcctKey caller now =
      (Except.ok (), { s with staking_program :=
        { s.staking_program with is_paused := true, paused_at := now } }) ∧
    unpause_contract s adminAcctKey caller =
      (Except.ok (), { s with staking_program :=
        { s.staking_program with is_paused := false, paused_at := 0 } }) := by
  constructor
  · simp [pause_contract, ha]
  · simp [unpause_contract, ha]

/-- A state whose only admin record (key 4) is *inactive*. -/
def c8State : State := { demoState with admins := [(4, { admin := 4, is_active := false, added_at := 7 })] }

/-- Witness for C8 (amended): caller 9 pauses and unpauses by supplying
the inactive admin record 4 that is not its own. -/
theorem c8_witness :
    (pause_contract c8State 4 9 123).1 = Except.ok () ∧
    (pause_contract c8State 4 9 123).2.staking_program.is_paused = true ∧
    (pause_contract c8State 4 9 123).2.staking_program.paused_at = 123 ∧
    (unpause_contract c8State 4 9).2.staking_program.is_paused = false := by
  have h := c8_pause_unguarded c8State 4 9 123
    { admin := 4, is_active := false, added_at := 7 } (by decide)
  refine ⟨?_, ?_, ?_, ?_⟩
  · rw [h.1]
  · rw [h.1]
  · rw [h.1]
  · rw [h.2]

/-- C8 counterexample: the claim as frozen says the *caller* must hold a
valid admin record.  Caller 5 holds none in the demo state, yet pausing
succeeds when any admin record (here key 2) is supplied. -/
theorem c8_counterexample :
    findRec 5 demoState.admins = none ∧
    (pause_contract demoState 2 5 77).1 = Except.ok () ∧
    (pause_contract demoState 2 5 77).2.staking_program.is_paused = true := by decide

/-- C9: every instruction that returns an error leaves the state exactly
as it was: all precondition, authorization and account-resolution checks
are evaluated before any write. -/
theorem c9_checks_precede_writes (s : State) (op : Op) (e : StakingError)
    (h : (apply s op).1 = Except.error e) : (apply s op).2 = s := by
  rcases apply_ok_or_unchanged s op with hok | hunch
  · rw [hok] at h
    exact absurd h (by simp)
  · exact hunch

/-- Witness for C9: an invalid-tier stake fails and changes nothing. -/
theorem c9_witness :
    (apply demoState (Op.opStakeNft 5 10 21 100 101 3 0)).1 =
      Except.error StakingError.InvalidDuration ∧
    (apply demoState (Op.opStakeNft 5 10 21 100 101 3 0)).2 = demoState :=
  ⟨by decide, c9_checks_precede_writes demoState (Op.opStakeNft 5 10 21 100 101 3 0)
    StakingError.InvalidDuration (by decide)⟩

/-- C3 (amended): starting from any state satisfying the counter
invariant (in particular the freshly initialized state) and running any
sequence of instructions in which every `claim_nft` / `admin_unlock` call
supplies the collection account actually referenced by its position
(`opWellFormed`, a discipline the code itself does not enforce), after
every prefix the global `total_staked` equals the number of active
positions and each collection record's `total_staked` equals the number of
active positions referencing it. -/
theorem c3_counter_consistency (s0 : State) (ops : List Op) (n : Nat)
    (hinv : Inv s0) (hwf : WFSeqB s0 ops = true) :
    (applySeq s0 (ops.take n)).staking_program.total_staked =
      activeCount (applySeq s0 (ops.take n)) ∧
    ∀ e ∈ (applySeq s0 (ops.take n)).collections,
      e.2.total_staked = collActiveCount (applySeq s0 (ops.take n)) e.1 := by
  have h := inv_applySeq (ops.take n) s0 hinv (WFSeqB_take ops s0 n hwf)
  exact ⟨h.1, fun e he => (h.2.1 e he).2⟩

/-- Witness for C3 (amended): the invariant holds after every prefix of
the demo history, e.g. after the first three operations. -/
theorem c3_witness :
    (applySeq (initState 1 2 demoTokens) (demoOps.take 3)).staking_program.total_staked =
      activeCount (applySeq (initState 1 2 demoTokens) (demoOps.take 3)) ∧
    ∀ e ∈ (applySeq (initState 1 2 demoTokens) (demoOps.take 3)).collections,
      e.2.total_staked =
        collActiveCount (applySeq (initState 1 2 demoTokens) (demoOps.take 3)) e.1 :=
  c3_counter_consistency (initState 1 2 demoTokens) demoOps 3 (by decide) (by decide)

/-- The demo history followed by a claim that supplies collection 11
instead of collection 10 referenced by the position. -/
def c3BadOps : List Op := demoOps ++ [.opClaimNft (20, 3) 11 100 101 3 15552000]

/-- C3 counterexample: the claim as frozen quantifies over *every*
sequence of stake/claim/emergency operations.  Running `c3BadOps` from the
fresh state, the final claim succeeds but decrements collection 11 instead
of collection 10, so afterwards collection 10's counter is 1 while no
active position references it (and the per-collection invariant fails). -/
theorem c3_counterexample :
    (applySeq (initState 1 2 demoTokens) c3BadOps).staking_program.total_staked = 0 ∧
    findRec 10 (applySeq (initState 1 2 demoTokens) c3BadOps).collections =
      some { collection_mint := 10, six_month_tickets := 5, twelve_month_tickets := 10,
             three_year_tickets := 20, six_month_multiplier := 11000,
             twelve_month_multiplier := 12500, three_year_multiplier := 15000,
             is_active := true, is_validated := false, total_staked := 1 } ∧
    collActiveCount (applySeq (initState 1 2 demoTokens) c3BadOps) 10 = 0 ∧
    ¬ (∀ e ∈ (applySeq (initState 1 2 demoTokens) c3BadOps).collections,
        e.2.total_staked =
          collActiveCount (applySeq (initState 1 2 demoTokens) c3BadOps) e.1) := by decide

/-- C10 (amended): when each counter is at least the number of active
positions it counts and the operation's preconditions hold — including
that the supplied collection account is the one the position references,
which the code does not check — both counters are at least 1 at the
decrement sites of `claim_nft` and `admin_unlock`, the truncated
subtraction is exact (no underflow), and both operations decrement the
counters by exactly one. -/
theorem c10_decrement_no_underflow (s : State) (posKey : PosKey)
    (collKey ut pt user akU otU admU : Pubkey) (reason : String) (now : Int)
    (c : CollectionAccount) (p : StakingPosition) (aU : AdminAccount)
    (hc : findRec collKey s.collections = some c)
    (hp : findRec posKey s.positions = some p)
    (hactive : p.is_active = true)
    (hmatch : p.collection_mint = collKey)
    (hgeG : activeCount s ≤ s.staking_program.total_staked)
    (hgeC : ∀ e ∈ s.collections, collActiveCount s e.1 ≤ e.2.total_staked) :
    1 ≤ s.staking_program.total_staked ∧
    1 ≤ c.total_staked ∧
    s.staking_program.total_staked - 1 + 1 = s.staking_program.total_staked ∧
    c.total_staked - 1 + 1 = c.total_staked ∧
    ((findRec ut s.token_owner).isNone = false →
      (findRec pt s.token_owner).isNone = false →
      s.staking_program.is_paused = false →
      p.owner = user → ¬ now < p.unlock_at →
      (claim_nft s posKey collKey ut pt user now).2.staking_program.total_staked + 1 =
        s.staking_program.total_staked ∧
      (claim_nft s posKey collKey ut pt user now).2.collections =
        setRec collKey { c with total_staked := c.total_staked - 1 } s.collections) ∧
    ((findRec pt s.token_owner).isNone = false →
      (findRec otU s.token_owner).isNone = false →
      findRec akU s.admins = some aU →
      ¬ reason = "" →
      ¬ (emergencyOf s posKey).requested_at = 0 →
      ¬ now < (emergencyOf s posKey).requested_at + EMERGENCY_DELAY →
      (emergencyOf s posKey).executed = false →
      (admin_unlock s posKey collKey akU pt otU admU reason now).2.staking_program.total_staked + 1 =
        s.staking_program.total_staked ∧
      (admin_unlock s posKey collKey akU pt otU admU reason now).2.collections =
        setRec collKey { c with total_staked := c.total_staked - 1 } s.collections) := by
  have hmemp : (posKey, p) ∈ s.positions := mem_of_findRec_some hp
  have hmemc : (collKey, c) ∈ s.collections := mem_of_findRec_some hc
  have hACpos : 1 ≤ activeCount s :=
    countV_pos_of_mem hmemp (by simp [isActiveB, hactive])
  have hCACpos : 1 ≤ collActiveCount s collKey :=
    countV_pos_of_mem hmemp (refsColl_eq_true hactive hmatch)
  have hCACle : collActiveCount s collKey ≤ c.total_staked := hgeC (collKey, c) hmemc
  have hG : 1 ≤ s.staking_program.total_staked := le_trans hACpos hgeG
  have hC : 1 ≤ c.total_staked := le_trans hCACpos hCACle
  refine ⟨hG, hC, by omega, by omega, ?_, ?_⟩
  · intro ht1 ht2 hpau howner htime
    have hr : claim_nft s posKey collKey ut pt user now =
        (Except.ok (), { s with
          positions := setRec posKey { p with is_active := false } s.positions
          transfers := s.transfers ++ [⟨pt, ut, 1⟩]
          staking_program := { s.staking_program with
            total_staked := s.staking_program.total_staked - 1 }
          collections := setRec collKey { c with total_staked := c.total_staked - 1 }
            s.collections }) := by
      simp [claim_nft, hc, hp, ht1, ht2, hpau, hactive, howner, htime]
    rw [hr]
    refine ⟨?_, rfl⟩
    show s.staking_program.total_staked - 1 + 1 = s.staking_program.total_staked
    omega
  · intro ht1 ht2 haU hreason hreq hdelay hexec
    have hr : admin_unlock s posKey collKey akU pt otU admU reason now =
        (Except.ok (), { s with
          emergencies := (setRec posKey
            { emergencyOf s posKey with executed := true } s.emergencies)
          positions := setRec posKey { p with is_active := false } s.positions
          transfers := s.transfers ++ [⟨pt, otU, 1⟩]
          staking_program := { s.staking_program with
            total_staked := s.staking_program.total_staked - 1 }
          collections := setRec collKey { c with total_staked := c.total_staked - 1 }
            s.collections }) := by
      simp [admin_unlock, hc, hp, haU, ht1, ht2, hreason, hactive, hreq, hdelay, hexec]
    rw [hr]
    refine ⟨?_, rfl⟩
    show s.staking_program.total_staked - 1 + 1 = s.staking_program.total_staked
    omega

/-- Witness for C10 (amended): in the demo state the owner's claim (with
the matching collection 10) decrements the global counter from 1 to 0
with no underflow. -/
theorem c10_witness :
    1 ≤ demoState.staking_program.total_staked ∧
    (claim_nft demoState (20, 3) 10 100 101 3 15552000).2.staking_program.total_staked + 1 =
      demoState.staking_program.total_staked := by
  have h := c10_decrement_no_underflow demoState (20, 3) 10 100 101 3 2 102 2 "r" 15552000
    { collection_mint := 10, six_month_tickets := 5, twelve_month_tickets := 10,
      three_year_tickets := 20, six_month_multiplier := 11000,
      twelve_month_multiplier := 12500, three_year_multiplier := 15000,
      is_active := true, is_validated := false, total_staked := 1 }
    { owner := 3, nft_mint := 20, collection_mint := 10, staked_at := 0,
      unlock_at := 15552000, duration := 0, is_active := true, total_rewards_earned := 0 }
    { admin := 2, is_active := true, added_at := 0 }
    (by decide) (by decide) (by decide) (by decide) (by decide) (by decide)
  exact ⟨h.1, (h.2.2.2.2.1 (by decide) (by decide) (by decide) (by decide)
    (by decide)).1⟩

/-- C10 counterexample: the claim as frozen asserts that the weak
invariant (each counter at least its active count) plus an active position
makes both counters at least 1 at the decrement site.  In the demo state
the invariant holds and the claim on position (20,3) reaches its
decrement, but it is collection 11 — supplied by the caller, counter 0 —
that gets decremented. -/
theorem c10_counterexample :
    activeCount demoState ≤ demoState.staking_program.total_staked ∧
    (∀ e ∈ demoState.collections, collActiveCount demoState e.1 ≤ e.2.total_staked) ∧
    (claim_nft demoState (20, 3) 11 100 101 3 15552000).1 = Except.ok () ∧
    findRec 11 demoState.collections =
      some { collection_mint := 11, six_month_tickets := 5, twelve_month_tickets := 10,
             three_year_tickets := 20, six_month_multiplier := 11000,
             twelve_month_multiplier := 12500, three_year_multiplier := 15000,
             is_active := true, is_validated := false, total_staked := 0 } := by decide

end NafflesStaking
